import Mathlib

/-!
Verification of the derived-view aggregation layer of the personal
productivity dashboard (`app.py`): calendar grid construction, the
productivity aggregator, the mock weather generator, CSV field
sanitisation, the note lifecycle, and the create handlers.

Each definition is a shallow embedding of the corresponding Python code;
the source location is given in its doc comment.
-/

namespace Dashboard

/- ================= Calendar arithmetic =================
Embeds the parts of Python's `calendar` / `datetime` libraries that
`calendar_page` (app.py lines 277-323) relies on: leap years, month
lengths, proleptic-Gregorian weekday computation, and
`calendar.Calendar(firstweekday=6).monthdayscalendar`. -/

/-- Gregorian leap-year test, as in Python's `calendar.isleap`. -/
def isLeap (y : ℕ) : Bool := (y % 4 == 0 && y % 100 != 0) || (y % 400 == 0)

/-- Number of days in month `m` of year `y` (Python `calendar.monthrange`'s
day count / `datetime`'s month length). -/
def monthLen (y m : ℕ) : ℕ :=
  if m = 2 then (if isLeap y then 29 else 28)
  else if m = 4 ∨ m = 6 ∨ m = 9 ∨ m = 11 then 30 else 31

/-- Days in all years strictly before year `y` of the proleptic Gregorian
calendar (year 1 is the first year), as in CPython's `datetime._days_before_year`. -/
def daysBeforeYear (y : ℕ) : ℕ :=
  (y - 1) * 365 + (y - 1) / 4 - (y - 1) / 100 + (y - 1) / 400

/-- Days in year `y` strictly before month `m`
(CPython `datetime._days_before_month`). -/
def daysBeforeMonth (y m : ℕ) : ℕ :=
  ((List.range' 1 (m - 1)).map (monthLen y)).sum

/-- Proleptic-Gregorian ordinal of the date (y, m, d); (1,1,1) has ordinal 1
(CPython `datetime.date.toordinal`). -/
def dateOrdinal (y m d : ℕ) : ℕ := daysBeforeYear y + daysBeforeMonth y m + d

/-- Weekday with Monday = 0 (Python `datetime.date.weekday()`);
day (1,1,1) is a Monday. -/
def weekdayMon0 (y m d : ℕ) : ℕ := (dateOrdinal y m d - 1) % 7

/-- Weekday with Sunday = 0 (column index in a Sunday-first week row). -/
def weekdaySun0 (y m d : ℕ) : ℕ := (weekdayMon0 y m d + 1) % 7

/-- Number of leading padding cells emitted by
`calendar.Calendar(firstweekday=6).itermonthdays`: `(day1 - 6) % 7` where
`day1` is the Monday-0 weekday of the first of the month (Python `%` on a
possibly negative left operand is `Int.emod`). -/
def leadingPad (y m : ℕ) : ℕ :=
  (((weekdayMon0 y m 1 : ℤ) - 6) % 7).toNat

/-- Number of trailing padding cells emitted by `itermonthdays`:
`(6 - day1 - ndays) % 7`. -/
def trailingPad (y m : ℕ) : ℕ :=
  (((6 : ℤ) - (weekdayMon0 y m 1 : ℤ) - (monthLen y m : ℤ)) % 7).toNat

/-- The flat day stream of `itermonthday`s: leading zeros, the day numbers
1..ndays, trailing zeros (app.py line 294 via `monthdayscalendar`). -/
def monthDaysFlat (y m : ℕ) : List ℕ :=
  List.replicate (leadingPad y m) 0
    ++ List.range' 1 (monthLen y m)
    ++ List.replicate (trailingPad y m) 0

/-- Split a list into consecutive chunks of 7 (the week rows of
`monthdayscalendar`); the fuel argument bounds the recursion and is
instantiated with the list length. -/
def toWeeksAux : ℕ → List ℕ → List (List ℕ)
  | 0, _ => []
  | _ + 1, [] => []
  | fuel + 1, a :: t => (a :: t).take 7 :: toWeeksAux fuel ((a :: t).drop 7)

def toWeeks (l : List ℕ) : List (List ℕ) := toWeeksAux l.length l

/-- `calendar.Calendar(firstweekday=6).monthdayscalendar(y, m)`
(app.py lines 293-294): the week-aligned month grid, Sunday first,
padding cells are 0. -/
def monthdayscalendar (y m : ℕ) : List (List ℕ) := toWeeks (monthDaysFlat y m)

theorem toWeeksAux_flatten (fuel : ℕ) :
    ∀ l : List ℕ, l.length ≤ fuel → (toWeeksAux fuel l).flatten = l := by
  induction fuel with
  | zero =>
    intro l hl
    have : l = [] := List.eq_nil_of_length_eq_zero (by omega)
    subst this
    simp [toWeeksAux]
  | succ n ih =>
    intro l hl
    cases l with
    | nil => simp [toWeeksAux]
    | cons a t =>
      simp only [toWeeksAux, List.flatten_cons]
      rw [ih ((a :: t).drop 7) (by simp only [List.length_drop]; simp at hl ⊢; omega)]
      exact List.take_append_drop 7 (a :: t)

theorem toWeeks_flatten (l : List ℕ) : (toWeeks l).flatten = l :=
  toWeeksAux_flatten l.length l le_rfl

theorem toWeeksAux_len (fuel : ℕ) :
    ∀ l : List ℕ, l.length ≤ fuel → 7 ∣ l.length →
      ∀ w ∈ toWeeksAux fuel l, w.length = 7 := by
  induction fuel with
  | zero =>
    intro l hl _ w hw
    have : l = [] := List.eq_nil_of_length_eq_zero (by omega)
    subst this
    simp [toWeeksAux] at hw
  | succ n ih =>
    intro l hl hd w hw
    cases l with
    | nil => simp [toWeeksAux] at hw
    | cons a t =>
      have hlen : 7 ≤ (a :: t).length := by
        rcases hd with ⟨k, hk⟩
        simp at hk ⊢
        omega
      simp only [toWeeksAux, List.mem_cons] at hw
      rcases hw with h | h
      · subst h
        simp only [List.length_take]
        omega
      · refine ih ((a :: t).drop 7) ?_ ?_ w h
        · simp only [List.length_drop]
          simp at hl ⊢
          omega
        · rcases hd with ⟨k, hk⟩
          refine ⟨k - 1, ?_⟩
          simp only [List.length_drop]
          omega

theorem toWeeks_len (l : List ℕ) (hd : 7 ∣ l.length) :
    ∀ w ∈ toWeeks l, w.length = 7 :=
  toWeeksAux_len l.length l le_rfl hd

theorem weekdayMon0_lt (y m d : ℕ) : weekdayMon0 y m d < 7 :=
  Nat.mod_lt _ (by omega)

theorem leadingPad_eq (y m : ℕ) :
    leadingPad y m = (weekdayMon0 y m 1 + 1) % 7 := by
  have h := weekdayMon0_lt y m 1
  unfold leadingPad
  omega

theorem monthDaysFlat_len_dvd (y m : ℕ) : 7 ∣ (monthDaysFlat y m).length := by
  have h := weekdayMon0_lt y m 1
  simp only [monthDaysFlat, List.length_append, List.length_replicate,
    List.length_range']
  unfold leadingPad trailingPad
  omega

theorem monthDaysFlat_filter (y m : ℕ) :
    (monthDaysFlat y m).filter (fun d => d ≠ 0) = List.range' 1 (monthLen y m) := by
  simp only [monthDaysFlat, List.filter_append]
  have hz : ∀ k, (List.replicate k (0 : ℕ)).filter (fun d => d ≠ 0) = [] := by
    intro k
    rw [List.filter_eq_nil_iff]
    intro a ha
    simp [List.eq_of_mem_replicate ha]
  have hr : (List.range' 1 (monthLen y m)).filter (fun d => d ≠ 0)
      = List.range' 1 (monthLen y m) := by
    rw [List.filter_eq_self]
    intro a ha
    have := List.mem_range'.mp ha
    simp only [ne_eq, decide_eq_true_eq]
    omega
  rw [hz, hz, hr, List.nil_append, List.append_nil]

theorem monthDaysFlat_getElem (y m d : ℕ) (h1 : 1 ≤ d) (h2 : d ≤ monthLen y m) :
    (monthDaysFlat y m)[leadingPad y m + (d - 1)]? = some d := by
  simp only [monthDaysFlat, List.append_assoc]
  rw [List.getElem?_append_right (by simp [List.length_replicate])]
  simp only [List.length_replicate, Nat.add_sub_cancel_left]
  rw [List.getElem?_append_left (by simp only [List.length_range']; omega)]
  rw [List.getElem?_range' 1 1 (by omega)]
  simp only [Option.some.injEq]
  omega

theorem monthDaysFlat_mem (y m : ℕ) (d : ℕ) (h : d ∈ monthDaysFlat y m) :
    d = 0 ∨ (1 ≤ d ∧ d ≤ monthLen y m) := by
  simp only [monthDaysFlat, List.mem_append] at h
  rcases h with (h | h) | h
  · exact Or.inl (List.eq_of_mem_replicate h)
  · have := List.mem_range'.mp h
    right; omega
  · exact Or.inl (List.eq_of_mem_replicate h)

theorem grid_column (y m d : ℕ) (h1 : 1 ≤ d) :
    (leadingPad y m + (d - 1)) % 7 = weekdaySun0 y m d := by
  rw [leadingPad_eq]
  unfold weekdaySun0 weekdayMon0 dateOrdinal
  omega

/-- C3: for every valid (year, month), the calendar-page month grid
(`calendar.Calendar(firstweekday=6).monthdayscalendar`, app.py lines 293-294)
is a list of week rows of length 7; its flattened non-padding (non-zero)
cells are exactly the day numbers 1..daysInMonth in order, each once;
every cell is either a padding 0 or a day of the month; and day `d` sits in
column `weekdaySun0 y m d`, so the first column is Sunday. -/
theorem C3_month_grid (y m : ℕ) (_hy : 1 ≤ y) (_hm1 : 1 ≤ m) (_hm2 : m ≤ 12) :
    (∀ w ∈ monthdayscalendar y m, w.length = 7) ∧
    (monthdayscalendar y m).flatten.filter (fun d => d ≠ 0)
      = List.range' 1 (monthLen y m) ∧
    (∀ d ∈ (monthdayscalendar y m).flatten, d = 0 ∨ (1 ≤ d ∧ d ≤ monthLen y m)) ∧
    (∀ d, 1 ≤ d → d ≤ monthLen y m →
      (monthdayscalendar y m).flatten[leadingPad y m + (d - 1)]? = some d ∧
      (leadingPad y m + (d - 1)) % 7 = weekdaySun0 y m d) := by
  refine ⟨toWeeks_len _ (monthDaysFlat_len_dvd y m), ?_, ?_, ?_⟩
  · rw [monthdayscalendar, toWeeks_flatten]
    exact monthDaysFlat_filter y m
  · rw [monthdayscalendar, toWeeks_flatten]
    exact monthDaysFlat_mem y m
  · intro d hd1 hd2
    rw [monthdayscalendar, toWeeks_flatten]
    exact ⟨monthDaysFlat_getElem y m d hd1 hd2, grid_column y m d hd1⟩

/-- Witness for C3 at (2024, 2): February 2024 has 29 days, the grid's
non-zero cells are 1..29, and day 15 sits right after the 14th non-padding
slot. -/
theorem C3_month_grid_witness :
    (monthdayscalendar 2024 2).flatten.filter (fun d => d ≠ 0)
      = List.range' 1 29 ∧
    (monthdayscalendar 2024 2).flatten[leadingPad 2024 2 + 14]? = some 15 := by
  have h := C3_month_grid 2024 2 (by omega) (by omega) (by omega)
  exact ⟨h.2.1, (h.2.2.2 15 (by omega) (by decide)).1⟩

/- ================= Calendar page (normalization and errors) ================= -/

/-- Month normalization of `calendar_page` (app.py lines 285-290): any month
above 12 becomes January of the next year, any month below 1 becomes
December of the previous year. -/
def normalizeYM (y m : ℤ) : ℤ × ℤ :=
  if 12 < m then (y + 1, 1) else if m < 1 then (y - 1, 12) else (y, m)

/-- Errors surfaced by the calendar page. -/
inductive CalendarError where
  | invalidCalendarInput
deriving DecidableEq

/-- The outcome of the `calendar_page` handler (app.py lines 277-323) for a
(year, month) query: after normalization, building the grid raises a
`ValueError` (modelled as `invalidCalendarInput`) when the year is outside
`datetime`'s range 1..9999 (raised inside `monthdayscalendar`, line 294,
which constructs `datetime.date(year, month, 1)`), and also when
(year, month) = (9999, 12), where computing `last_day` constructs
`datetime(10000, 1, 1)` (line 300). Otherwise the month grid is rendered. -/
def calendarPage (y m : ℤ) : Except CalendarError (List (List ℕ)) :=
  let p := normalizeYM y m
  if 1 ≤ p.1 ∧ p.1 ≤ 9999 then
    if p.1 = 9999 ∧ p.2 = 12 then .error .invalidCalendarInput
    else .ok (monthdayscalendar p.1.toNat p.2.toNat)
  else .error .invalidCalendarInput

/-- C4: any (year, month) that is still invalid after the one-unit
normalization — the normalized month outside 1..12 (in fact impossible:
normalization always lands in 1..12, as the second conjunct shows) or the
normalized year outside the date library's range 1..9999 — makes the
calendar page fail with the invalid-input error instead of silently
clamping further. -/
theorem C4_invalid_calendar_input (y m : ℤ)
    (h : ¬ (1 ≤ (normalizeYM y m).2 ∧ (normalizeYM y m).2 ≤ 12 ∧
            1 ≤ (normalizeYM y m).1 ∧ (normalizeYM y m).1 ≤ 9999)) :
    calendarPage y m = .error .invalidCalendarInput ∧
    1 ≤ (normalizeYM y m).2 ∧ (normalizeYM y m).2 ≤ 12 := by
  have hm : 1 ≤ (normalizeYM y m).2 ∧ (normalizeYM y m).2 ≤ 12 := by
    unfold normalizeYM
    split
    · exact ⟨by omega, by omega⟩
    · split
      · exact ⟨by omega, by omega⟩
      · rename_i h1 h2
        exact ⟨by omega, by omega⟩
  refine ⟨?_, hm⟩
  have hy : ¬ (1 ≤ (normalizeYM y m).1 ∧ (normalizeYM y m).1 ≤ 9999) := by
    tauto
  unfold calendarPage
  simp only [hy, if_false]

/-- Witness for C4 at (10000, 5): the year is out of range after
normalization and the page errors out. -/
theorem C4_invalid_calendar_input_witness :
    calendarPage 10000 5 = .error .invalidCalendarInput :=
  (C4_invalid_calendar_input 10000 5 (by decide)).1

/- ================= Timestamps and pomodoro sessions =================
`datetime` values are modelled with an integer day number (days of the
local calendar, so `timedelta(days=k)` is addition on `day`) plus the
time-of-day fields used by the code. Comparison of `datetime`s is
comparison of the microsecond count. -/

/-- A `datetime.datetime` value: local day number plus time of day. -/
structure DateTime where
  day : ℤ
  hour : ℕ
  minute : ℕ
  second : ℕ
  micro : ℕ
deriving DecidableEq

/-- Total microseconds represented by a `DateTime`; `datetime` comparison
is comparison of this quantity (for in-range field values). -/
def toMicros (t : DateTime) : ℤ :=
  (((t.day * 24 + t.hour) * 60 + t.minute) * 60 + t.second) * 1000000 + t.micro

/-- Field ranges a real `datetime` satisfies. -/
def WfTime (t : DateTime) : Prop :=
  t.hour < 24 ∧ t.minute < 60 ∧ t.second < 60 ∧ t.micro < 1000000

instance (t : DateTime) : Decidable (WfTime t) := by
  unfold WfTime; infer_instance

/-- `now.replace(hour=0, minute=0, second=0, microsecond=0)` — local
midnight (app.py lines 330, 552, 253). -/
def midnightOf (t : DateTime) : DateTime := ⟨t.day, 0, 0, 0, 0⟩

/-- `now.replace(hour=0, minute=0, second=0)` as written on the dashboard
(app.py line 246): the microsecond field is NOT zeroed, so the threshold
keeps `now`'s microsecond component. -/
def dashboardMidnightOf (t : DateTime) : DateTime := ⟨t.day, 0, 0, 0, t.micro⟩

/-- `t + timedelta(days=n)`. -/
def addDays (t : DateTime) (n : ℤ) : DateTime := { t with day := t.day + n }

/-- A `PomodoroSession` row (app.py lines 84-97). -/
structure PomSession where
  duration : ℤ
  completed : Bool
  createdAt : DateTime
deriving DecidableEq

/-- `PomodoroSession.query.count()` (app.py lines 336, 558). -/
def totalSessions (ss : List PomSession) : ℕ := ss.length

/-- Today-session count of the dashboard (app.py lines 245-247):
sessions with `created_at >= datetime.now().replace(hour=0, minute=0, second=0)`.
There is no upper bound, and the microsecond field of the threshold is
`now`'s. -/
def dashboardTodaySessions (now : DateTime) (ss : List PomSession) : ℕ :=
  ss.countP (fun s => decide (toMicros (dashboardMidnightOf now) ≤ toMicros s.createdAt))

/-- Today-session count of the pomodoro page (app.py lines 330-333):
sessions with `created_at >= today_start` where `today_start` zeroes the
whole time of day. No upper bound. -/
def pomodoroTodaySessions (now : DateTime) (ss : List PomSession) : ℕ :=
  ss.countP (fun s => decide (toMicros (midnightOf now) ≤ toMicros s.createdAt))

/-- Today-session count of `/api/pomodoro/stats` (app.py lines 552-556);
the same filter as the pomodoro page. -/
def statsTodaySessions (now : DateTime) (ss : List PomSession) : ℕ :=
  ss.countP (fun s => decide (toMicros (midnightOf now) ≤ toMicros s.createdAt))

/-- The count the claim describes: sessions whose `createdAt` lies in the
half-open window [midnight of now's date, midnight + 1 day). -/
def claimedTodayCount (now : DateTime) (ss : List PomSession) : ℕ :=
  ss.countP (fun s => decide (toMicros (midnightOf now) ≤ toMicros s.createdAt ∧
    toMicros s.createdAt < toMicros (addDays (midnightOf now) 1)))

/-- Sessions dated at or after the *next* midnight (future-dated sessions). -/
def futureSessions (now : DateTime) (ss : List PomSession) : ℕ :=
  ss.countP (fun s => decide (toMicros (addDays (midnightOf now) 1) ≤ toMicros s.createdAt))

/-- C1 counterexample: with `now` at noon of day 100 and a single session
created at midnight of day 101 (i.e. the following day), the stats
endpoint (and the pomodoro page) count it as a today-session, while the
claimed half-open window count is 0: the filter has no upper bound. -/
theorem C1_counterexample :
    statsTodaySessions ⟨100, 12, 0, 0, 0⟩ [⟨25, true, ⟨101, 0, 0, 0, 0⟩⟩] = 1 ∧
    pomodoroTodaySessions ⟨100, 12, 0, 0, 0⟩ [⟨25, true, ⟨101, 0, 0, 0, 0⟩⟩] = 1 ∧
    dashboardTodaySessions ⟨100, 12, 0, 0, 0⟩ [⟨25, true, ⟨101, 0, 0, 0, 0⟩⟩] = 1 ∧
    claimedTodayCount ⟨100, 12, 0, 0, 0⟩ [⟨25, true, ⟨101, 0, 0, 0, 0⟩⟩] = 0 := by
  decide

/-- C1 (amended): each today-session count equals the sessions in the
claimed half-open window *plus* all sessions dated at or after the next
midnight — the code's filter has a lower bound only.  For the dashboard
this holds whenever `now.microsecond = 0`; in general its threshold is
midnight plus `now`'s microsecond component, because its `replace` call
does not zero microseconds. -/
theorem C1_today_count_amended (now : DateTime) (ss : List PomSession) :
    statsTodaySessions now ss = claimedTodayCount now ss + futureSessions now ss ∧
    pomodoroTodaySessions now ss = claimedTodayCount now ss + futureSessions now ss ∧
    (now.micro = 0 →
      dashboardTodaySessions now ss = claimedTodayCount now ss + futureSessions now ss) := by
  induction ss with
  | nil => simp [statsTodaySessions, pomodoroTodaySessions, dashboardTodaySessions,
      claimedTodayCount, futureSessions, List.countP_nil]
  | cons s ss ih =>
    obtain ⟨ih1, ih2, ih3⟩ := ih
    refine ⟨?_, ?_, fun hmic => ?_⟩ <;>
      simp only [statsTodaySessions, pomodoroTodaySessions, dashboardTodaySessions,
        claimedTodayCount, futureSessions, List.countP_cons, decide_eq_true_eq] at *
    · rw [ih1]
      simp only [toMicros, midnightOf, addDays, dashboardMidnightOf]
      split_ifs <;> omega
    · rw [ih2]
      simp only [toMicros, midnightOf, addDays, dashboardMidnightOf]
      split_ifs <;> omega
    · rw [ih3 hmic]
      simp only [toMicros, midnightOf, addDays, dashboardMidnightOf, hmic]
      split_ifs <;> omega

/-- Witness for C1's amended statement: concrete `now` with zero
microseconds, one session earlier today, one tomorrow, one yesterday. -/
theorem C1_today_count_amended_witness :
    dashboardTodaySessions ⟨10, 15, 30, 0, 0⟩
        [⟨25, true, ⟨10, 9, 0, 0, 0⟩⟩, ⟨50, true, ⟨11, 1, 0, 0, 0⟩⟩, ⟨10, true, ⟨9, 23, 0, 0, 0⟩⟩]
      = claimedTodayCount ⟨10, 15, 30, 0, 0⟩
          [⟨25, true, ⟨10, 9, 0, 0, 0⟩⟩, ⟨50, true, ⟨11, 1, 0, 0, 0⟩⟩, ⟨10, true, ⟨9, 23, 0, 0, 0⟩⟩]
        + futureSessions ⟨10, 15, 30, 0, 0⟩
          [⟨25, true, ⟨10, 9, 0, 0, 0⟩⟩, ⟨50, true, ⟨11, 1, 0, 0, 0⟩⟩, ⟨10, true, ⟨9, 23, 0, 0, 0⟩⟩] :=
  (C1_today_count_amended ⟨10, 15, 30, 0, 0⟩ _).2.2 rfl

/- ================= Weekly histogram (dashboard, app.py lines 249-262) ================= -/

/-- `day_start` of bucket `i` of the dashboard's weekly chart:
`(datetime.now() - timedelta(days=6-i)).replace(hour=0, minute=0, second=0, microsecond=0)`
(app.py lines 252-253). -/
def bucketStart (now : DateTime) (i : ℕ) : DateTime :=
  ⟨now.day - (6 - (i : ℤ)), 0, 0, 0, 0⟩

/-- Sessions counted into bucket `i`: `day_start <= created_at < day_start + 1 day`
(app.py lines 255-258). -/
def bucketCount (now : DateTime) (i : ℕ) (ss : List PomSession) : ℕ :=
  ss.countP (fun s => decide (toMicros (bucketStart now i) ≤ toMicros s.createdAt ∧
    toMicros s.createdAt < toMicros (addDays (bucketStart now i) 1)))

/-- The seven bucket counts of `weekly_data`, oldest day first
(app.py lines 250-262; the cosmetic weekday label is not modelled). -/
def weeklySessions (now : DateTime) (ss : List PomSession) : List ℕ :=
  (List.range 7).map (fun i => bucketCount now i ss)

/-- Membership in the trailing 7-day window the buckets jointly cover:
[midnight six days ago, next midnight). -/
def InTrailingWeek (now : DateTime) (s : PomSession) : Prop :=
  toMicros ⟨now.day - 6, 0, 0, 0, 0⟩ ≤ toMicros s.createdAt ∧
  toMicros s.createdAt < toMicros ⟨now.day + 1, 0, 0, 0, 0⟩

instance (now : DateTime) (s : PomSession) : Decidable (InTrailingWeek now s) := by
  unfold InTrailingWeek; infer_instance

theorem bucket_mem_iff (now : DateTime) (c : DateTime) (hc : WfTime c) (i : ℕ) :
    (toMicros (bucketStart now i) ≤ toMicros c ∧
     toMicros c < toMicros (addDays (bucketStart now i) 1))
      ↔ c.day = now.day - 6 + i := by
  obtain ⟨h1, h2, h3, h4⟩ := hc
  simp only [bucketStart, addDays, toMicros]
  omega

theorem trailing_week_iff (now : DateTime) (s : PomSession)
    (hs : WfTime s.createdAt) :
    InTrailingWeek now s ↔ now.day - 6 ≤ s.createdAt.day ∧ s.createdAt.day ≤ now.day := by
  obtain ⟨h1, h2, h3, h4⟩ := hs
  simp only [InTrailingWeek, toMicros]
  omega

theorem bucketCount_cons (now : DateTime) (s : PomSession) (ss : List PomSession)
    (hs : WfTime s.createdAt) (i : ℕ) :
    bucketCount now i (s :: ss)
      = bucketCount now i ss
        + (if s.createdAt.day = now.day - 6 + i then 1 else 0) := by
  rw [bucketCount, List.countP_cons, ← bucketCount]
  congr 1
  simp only [decide_eq_true_eq]
  rw [if_congr (bucket_mem_iff now s.createdAt hs i) rfl rfl]

theorem weekly_sum_cons (now : DateTime) (s : PomSession) (ss : List PomSession)
    (hs : WfTime s.createdAt) :
    (weeklySessions now (s :: ss)).sum
      = (weeklySessions now ss).sum + (if InTrailingWeek now s then 1 else 0) := by
  have h7 : List.range 7 = [0, 1, 2, 3, 4, 5, 6] := rfl
  simp only [weeklySessions, h7, List.map_cons, List.map_nil, List.sum_cons,
    List.sum_nil, bucketCount_cons now s ss hs]
  rw [if_congr (trailing_week_iff now s hs) rfl rfl]
  push_cast
  split_ifs <;> omega

/-- C5: for every `now`, the seven weekly-histogram bucket counts (oldest
day first, each bucket the day window [00:00, 24:00)) sum to the number of
sessions inside the trailing 7-day window; hence when every session falls
inside that window the sum equals `totalCount`, and sessions outside the
window are excluded from the sum but still counted in `totalCount`. -/
theorem C5_weekly_histogram (now : DateTime) (ss : List PomSession)
    (h : ∀ s ∈ ss, WfTime s.createdAt) :
    (weeklySessions now ss).sum = ss.countP (fun s => decide (InTrailingWeek now s)) ∧
    ((∀ s ∈ ss, InTrailingWeek now s) →
      (weeklySessions now ss).sum = totalSessions ss) := by
  have main : (weeklySessions now ss).sum
      = ss.countP (fun s => decide (InTrailingWeek now s)) := by
    induction ss with
    | nil => simp [weeklySessions, bucketCount, List.countP_nil]
    | cons s ss ih =>
      rw [weekly_sum_cons now s ss (h s (List.mem_cons_self s ss)),
        ih (fun x hx => h x (List.mem_cons_of_mem s hx)),
        List.countP_cons]
      simp only [decide_eq_true_eq]
  refine ⟨main, fun hall => ?_⟩
  rw [main, totalSessions, List.countP_eq_length.mpr]
  intro a ha
  simpa using hall a ha

/-- Witness for C5: two sessions inside the trailing week of a concrete
`now`; the bucket counts sum to the total of 2. -/
theorem C5_weekly_histogram_witness :
    (weeklySessions ⟨10, 15, 0, 0, 0⟩
        [⟨25, true, ⟨10, 9, 0, 0, 0⟩⟩, ⟨50, true, ⟨4, 8, 30, 0, 0⟩⟩]).sum
      = totalSessions [⟨25, true, ⟨10, 9, 0, 0, 0⟩⟩, ⟨50, true, ⟨4, 8, 30, 0, 0⟩⟩] :=
  (C5_weekly_histogram ⟨10, 15, 0, 0, 0⟩ _ (by decide)).2 (by decide)

/- ================= Mock weather generator (app.py lines 144-182) ================= -/

/-- One entry of the `conditions` template list (app.py lines 146-152). -/
structure WeatherCond where
  condition : String
  icon : String
  tmin : ℤ
  tmax : ℤ
deriving DecidableEq

/-- The fixed condition templates (app.py lines 146-152). -/
def conditions : List WeatherCond :=
  [⟨"Sunny", "sun", 22, 32⟩,
   ⟨"Partly Cloudy", "cloud-sun", 20, 28⟩,
   ⟨"Cloudy", "cloud", 18, 25⟩,
   ⟨"Light Rain", "cloud-rain", 16, 22⟩,
   ⟨"Clear", "moon-stars", 18, 26⟩]

/-- `conditions[day % len(conditions)]` (app.py lines 155-156); the index is
always in range, so the default is never used. -/
def condAt (day : ℕ) : WeatherCond :=
  conditions.getD (day % conditions.length) ⟨"", "", 0, 0⟩

/-- Round `n / d` (for `d > 0`) to the nearest integer, ties to even — the
semantics of Python's built-in `round` on the exact value `n / d`. -/
def roundHalfEvenDiv (n d : ℤ) : ℤ :=
  if 2 * (n % d) < d then n / d
  else if d < 2 * (n % d) then n / d + 1
  else if (n / d) % 2 = 0 then n / d else n / d + 1

/-- 28 times the exact value of the temperature expression
`temp_min + (temp_max - temp_min) * (0.5 + 0.5 * (1 - abs(14 - hour) / 14))`
(app.py line 161): the expression equals
`tmin + (tmax - tmin) * (28 - |14 - hour|) / 28`. -/
def tempTimes28 (day hour : ℕ) : ℤ :=
  28 * (condAt day).tmin
    + ((condAt day).tmax - (condAt day).tmin) * (28 - |14 - (hour : ℤ)|)

/-- `round(temp)` (app.py line 176).  The Python expression is evaluated in
IEEE-754 doubles and `round` rounds half-to-even; over the whole reachable
input domain (5 conditions × 24 hours) the double evaluation yields exactly
the correctly-rounded result of the exact rational value (every tie lands
on an exactly representable half-integer), so the code's displayed
temperature is the exact value `tempTimes28 / 28` rounded half-to-even. -/
def displayTemp (day hour : ℕ) : ℤ := roundHalfEvenDiv (tempTimes28 day hour) 28

/-- One entry of the 5-day forecast (app.py lines 163-172); `r` supplies
the values of the successive `random.randint(-2, 2)` calls. -/
structure ForecastDay where
  dayName : String
  high : ℤ
  low : ℤ
  icon : String
deriving DecidableEq

/-- `strftime("%a")` weekday abbreviations indexed by Monday-0 weekday. -/
def dayAbbrev : List String := ["Mon", "Tue", "Wed", "Thu", "Fri", "Sat", "Sun"]

/-- The forecast loop (app.py lines 164-172): condition at
`(day_index + i) % len(conditions)`, random ±2 jitter on the template's
max/min, weekday label from `now + i` days (`wd` is now's Monday-0
weekday). -/
def forecastList (day wd : ℕ) (r : ℕ → ℤ) : List ForecastDay :=
  (List.range 5).map fun i =>
    let dc := conditions.getD ((day % conditions.length + i) % conditions.length)
      ⟨"", "", 0, 0⟩
    { dayName := dayAbbrev.getD ((wd + i) % 7) ""
      high := dc.tmax + r (2 * i)
      low := dc.tmin + r (2 * i + 1)
      icon := dc.icon }

/-- The value returned by `get_mock_weather` (app.py lines 174-182).
`day` is `datetime.now().day` (day of month), `hour` is
`datetime.now().hour`, `wd` is now's Monday-0 weekday, and `r` supplies
the successive `random.randint` results: indices 0-9 the forecast jitter,
10 the humidity `randint(0, 30)`, 11 the wind `randint(0, 15)`. -/
structure WeatherSnapshot where
  location : String
  temperature : ℤ
  condition : String
  icon : String
  humidity : ℤ
  wind : ℤ
  forecast : List ForecastDay
deriving DecidableEq

def getMockWeather (day hour wd : ℕ) (r : ℕ → ℤ) : WeatherSnapshot :=
  { location := "Shenzhen, China"
    temperature := displayTemp day hour
    condition := (condAt day).condition
    icon := (condAt day).icon
    humidity := 50 + r 10
    wind := 5 + r 11
    forecast := forecastList day wd r }

/-- C6: two invocations of the weather generator on the same day of month
and in the same hour — whatever the random source returns on each call —
produce the same condition name, the same icon and the same rounded
temperature; the random source only feeds humidity, wind and the forecast
jitter. -/
theorem C6_weather_same_hour_deterministic (day hour wd : ℕ) (r r' : ℕ → ℤ) :
    (getMockWeather day hour wd r).condition = (getMockWeather day hour wd r').condition ∧
    (getMockWeather day hour wd r).icon = (getMockWeather day hour wd r').icon ∧
    (getMockWeather day hour wd r).temperature = (getMockWeather day hour wd r').temperature :=
  ⟨rfl, rfl, rfl⟩

/- ================= The spec-side temperature formula ================= -/

/-- Round a rational to the nearest integer, ties to even (the semantics of
Python's `round`). -/
def roundHalfEven (q : ℚ) : ℤ :=
  if q - ⌊q⌋ < 1/2 then ⌊q⌋
  else if 1/2 < q - ⌊q⌋ then ⌊q⌋ + 1
  else if ⌊q⌋ % 2 = 0 then ⌊q⌋ else ⌊q⌋ + 1

/-- The temperature formula exactly as the spec states it:
`min + (max - min) * (0.5 + 0.5 * (1 - |14 - hour| / 14))`. -/
def specTempFormula (t1 t2 : ℤ) (hour : ℕ) : ℚ :=
  t1 + (t2 - t1) * (1/2 + 1/2 * (1 - |(14 : ℚ) - hour| / 14))

theorem specTempFormula_frac (t1 t2 : ℤ) (h : ℕ) :
    specTempFormula t1 t2 h
      = ((28 * t1 + (t2 - t1) * (28 - |14 - (h : ℤ)|) : ℤ) : ℚ) / 28 := by
  unfold specTempFormula
  push_cast
  field_simp
  ring

theorem roundHalfEvenDiv_eq (n : ℤ) (d : ℕ) (hd : 0 < d) :
    roundHalfEvenDiv n d = roundHalfEven ((n : ℚ) / (d : ℚ)) := by
  have hdq : (0 : ℚ) < d := by exact_mod_cast hd
  have hfl : ⌊(n : ℚ) / (d : ℚ)⌋ = n / (d : ℤ) := Rat.floor_intCast_div_natCast n d
  have hrem : (n : ℚ) / d - (⌊(n : ℚ) / (d : ℚ)⌋ : ℚ) = ((n % (d : ℤ) : ℤ) : ℚ) / d := by
    rw [hfl, Int.emod_def]
    push_cast
    field_simp
  have key1 : ∀ a : ℤ, (((a : ℤ) : ℚ) / d < 1/2) ↔ (2 * a < (d : ℤ)) := by
    intro a
    rw [div_lt_iff₀ hdq]
    constructor
    · intro h
      have h2 : ((2 * a : ℤ) : ℚ) < ((d : ℤ) : ℚ) := by push_cast; linarith
      exact_mod_cast h2
    · intro h
      have h2 : ((2 * a : ℤ) : ℚ) < ((d : ℤ) : ℚ) := by exact_mod_cast h
      push_cast at h2
      linarith
  have key2 : ∀ a : ℤ, ((1 : ℚ)/2 < ((a : ℤ) : ℚ) / d) ↔ ((d : ℤ) < 2 * a) := by
    intro a
    rw [lt_div_iff₀ hdq]
    constructor
    · intro h
      have h2 : ((d : ℤ) : ℚ) < ((2 * a : ℤ) : ℚ) := by push_cast; linarith
      exact_mod_cast h2
    · intro h
      have h2 : ((d : ℤ) : ℚ) < ((2 * a : ℤ) : ℚ) := by exact_mod_cast h
      push_cast at h2
      linarith
  unfold roundHalfEvenDiv roundHalfEven
  rw [hrem, hfl]
  simp only [key1, key2]

theorem roundHalfEvenDiv_28 (n : ℤ) :
    roundHalfEvenDiv n 28 = roundHalfEven ((n : ℚ) / 28) := by
  have h := roundHalfEvenDiv_eq n 28 (by norm_num)
  push_cast at h
  exact h

/-- Half-even rounding always returns a nearest integer: the distance to
the rational is at most 1/2. -/
theorem roundHalfEven_nearest (q : ℚ) : 2 * |(roundHalfEven q : ℚ) - q| ≤ 1 := by
  have hfl1 : ((⌊q⌋ : ℤ) : ℚ) ≤ q := Int.floor_le q
  have hfl2 : q < ⌊q⌋ + 1 := Int.lt_floor_add_one q
  unfold roundHalfEven
  split_ifs with h1 h2 h3 <;>
    [have hb : |((⌊q⌋ : ℤ) : ℚ) - q| ≤ 1/2 := abs_le.mpr ⟨by linarith, by linarith⟩;
     have hb : |(((⌊q⌋ + 1 : ℤ)) : ℚ) - q| ≤ 1/2 := abs_le.mpr
       ⟨by push_cast; linarith, by push_cast; linarith⟩;
     have hb : |((⌊q⌋ : ℤ) : ℚ) - q| ≤ 1/2 := abs_le.mpr ⟨by linarith, by linarith⟩;
     have hb : |(((⌊q⌋ + 1 : ℤ)) : ℚ) - q| ≤ 1/2 := abs_le.mpr
       ⟨by push_cast; linarith, by push_cast; linarith⟩] <;>
    [linarith [hb]; (push_cast at hb ⊢; linarith [hb]);
     linarith [hb]; (push_cast at hb ⊢; linarith [hb])]

theorem roundHalfEven_intCast (z : ℤ) : roundHalfEven (z : ℚ) = z := by
  unfold roundHalfEven
  rw [Int.floor_intCast]
  norm_num

theorem specTempFormula_peak (t1 t2 : ℤ) : specTempFormula t1 t2 14 = t2 := by
  unfold specTempFormula
  norm_num

/-- C7: for every hour 0..23 (and every day and random source), the
displayed temperature is the spec's interpolation formula over the selected
condition's range, rounded to the nearest integer (ties to even, as
Python's `round`); it never differs from the exact formula value by more
than 1/2, and at hour 14 it equals the range maximum. -/
theorem C7_temperature_formula (day hour wd : ℕ) (r : ℕ → ℤ) (_hh : hour < 24) :
    (getMockWeather day hour wd r).temperature
        = roundHalfEven (specTempFormula (condAt day).tmin (condAt day).tmax hour) ∧
    2 * |((getMockWeather day hour wd r).temperature : ℚ)
          - specTempFormula (condAt day).tmin (condAt day).tmax hour| ≤ 1 ∧
    (getMockWeather day 14 wd r).temperature = (condAt day).tmax := by
  have hconn : ∀ h' : ℕ, (getMockWeather day h' wd r).temperature
      = roundHalfEven (specTempFormula (condAt day).tmin (condAt day).tmax h') := by
    intro h'
    show roundHalfEvenDiv (tempTimes28 day h') 28 = _
    rw [specTempFormula_frac, roundHalfEvenDiv_28]
    rfl
  refine ⟨hconn hour, ?_, ?_⟩
  · rw [hconn hour]
    exact roundHalfEven_nearest _
  · rw [hconn 14, specTempFormula_peak, roundHalfEven_intCast]

/-- Witness for C7 at day 3 (Light Rain, range 16..22) and hour 7, where
the exact formula value is the tie 20.5 and the code displays 20 (ties go
to the even integer). -/
theorem C7_temperature_formula_witness :
    (getMockWeather 3 7 0 (fun _ => 0)).temperature
        = roundHalfEven (specTempFormula (condAt 3).tmin (condAt 3).tmax 7) ∧
    (getMockWeather 3 7 0 (fun _ => 0)).temperature = 20 :=
  ⟨(C7_temperature_formula 3 7 0 (fun _ => 0) (by omega)).1, by decide⟩

theorem condAt_mod (day : ℕ) : condAt day = condAt (day % 5) := by
  unfold condAt
  have h : conditions.length = 5 := rfl
  rw [h]
  rw [Nat.mod_mod_of_dvd day dvd_rfl]

theorem displayTemp_mod (day hour : ℕ) :
    displayTemp day hour = displayTemp (day % 5) hour := by
  unfold displayTemp tempTimes28
  rw [condAt_mod]

/-- C10 (implicit): the rounded displayed temperature always lies within
the selected condition's [minTemp, maxTemp] range, and in fact never below
the midpoint of that range, for every day of month and hour 0..23. -/
theorem C10_temp_within_range (day hour wd : ℕ) (r : ℕ → ℤ) (hh : hour < 24) :
    (condAt day).tmin ≤ (getMockWeather day hour wd r).temperature ∧
    (getMockWeather day hour wd r).temperature ≤ (condAt day).tmax ∧
    (condAt day).tmin + (condAt day).tmax
      ≤ 2 * (getMockWeather day hour wd r).temperature := by
  have hall : ∀ k, k < 5 → ∀ h', h' < 24 →
      (condAt k).tmin ≤ displayTemp k h' ∧
      displayTemp k h' ≤ (condAt k).tmax ∧
      (condAt k).tmin + (condAt k).tmax ≤ 2 * displayTemp k h' := by decide
  have h5 : day % 5 < 5 := by omega
  show (condAt day).tmin ≤ displayTemp day hour ∧
      displayTemp day hour ≤ (condAt day).tmax ∧
      (condAt day).tmin + (condAt day).tmax ≤ 2 * displayTemp day hour
  rw [condAt_mod, displayTemp_mod]
  exact hall (day % 5) h5 hour hh

/-- Witness for C10 on day 17 (17 % 5 = 2, Cloudy, range 18..25) at
hour 0: the displayed temperature is 22, inside [18, 25] and at least the
midpoint 21.5. -/
theorem C10_temp_within_range_witness :
    (condAt 17).tmin ≤ (getMockWeather 17 0 0 (fun _ => 0)).temperature ∧
    (getMockWeather 17 0 0 (fun _ => 0)).temperature ≤ (condAt 17).tmax ∧
    (getMockWeather 17 0 0 (fun _ => 0)).temperature = 22 :=
  ⟨(C10_temp_within_range 17 0 0 (fun _ => 0) (by omega)).1,
   (C10_temp_within_range 17 0 0 (fun _ => 0) (by omega)).2.1,
   by decide⟩

/- ================= CSV export field sanitisation (app.py lines 626-669) ================= -/

/-- Python `str.replace(a, b)` for single-character `a`, `b`: every
occurrence of `a` becomes `b`. -/
def replaceChar (a b : Char) (l : List Char) : List Char :=
  l.map fun c => if c = a then b else c

/-- `content.replace('\n', ' ').replace('\r', ' ')`
(app.py lines 637 and 660). -/
def sanitizeField (l : List Char) : List Char :=
  replaceChar '\r' ' ' (replaceChar '\n' ' ' l)

/-- The Content cell written by `export_notes_csv` (app.py line 637):
the sanitised content, or `''` when the content is absent or empty
(Python falsiness). -/
def noteContentField (content : Option String) : String :=
  match content with
  | some c => if c = "" then "" else ⟨sanitizeField c.data⟩
  | none => ""

/-- The Description cell written by `export_calendar_csv`
(app.py line 660). -/
def eventDescriptionField (description : Option String) : String :=
  match description with
  | some c => if c = "" then "" else ⟨sanitizeField c.data⟩
  | none => ""

theorem sanitizeField_eq_map (l : List Char) :
    sanitizeField l = l.map (fun c => if c = '\n' ∨ c = '\r' then ' ' else c) := by
  simp only [sanitizeField, replaceChar, List.map_map]
  apply List.map_congr_left
  intro c _
  simp only [Function.comp_apply]
  split_ifs with h1 h2 h3 h4 <;> simp_all

/-- C8: CSV export replaces every embedded LF and CR in a note's content
or an event's description by a single space, so the exported field text
contains no raw line break; in particular `"line1\nline2"` exports as
exactly `"line1 line2"`. -/
theorem C8_csv_linebreaks :
    (∀ l : List Char, '\n' ∉ sanitizeField l ∧ '\r' ∉ sanitizeField l ∧
      sanitizeField l = l.map (fun c => if c = '\n' ∨ c = '\r' then ' ' else c)) ∧
    noteContentField (some "line1\nline2") = "line1 line2" ∧
    eventDescriptionField (some "line1\nline2") = "line1 line2" := by
  refine ⟨fun l => ⟨?_, ?_, sanitizeField_eq_map l⟩, by decide, by decide⟩
  · rw [sanitizeField_eq_map]
    intro hmem
    obtain ⟨c, _, hc⟩ := List.mem_map.mp hmem
    split_ifs at hc with h
    · exact absurd hc (by decide)
    · exact h (Or.inl hc)
  · rw [sanitizeField_eq_map]
    intro hmem
    obtain ⟨c, _, hc⟩ := List.mem_map.mp hmem
    split_ifs at hc with h
    · exact absurd hc (by decide)
    · exact h (Or.inr hc)

/-- Witness for C8 on the concrete content "a\nb". -/
theorem C8_csv_linebreaks_witness :
    '\n' ∉ sanitizeField "a\nb".data ∧
    noteContentField (some "line1\nline2") = "line1 line2" :=
  ⟨(C8_csv_linebreaks.1 "a\nb".data).1, C8_csv_linebreaks.2.1⟩

/- ================= Note lifecycle (app.py lines 43-60, 415-449) ================= -/

/-- A `Note` row. Timestamps are abstract instants (e.g. microseconds of
UTC time); only their order matters here. -/
structure NoteRec where
  title : String
  content : String
  color : String
  createdAt : ℤ
  updatedAt : ℤ
deriving DecidableEq

/-- `add_note` (app.py lines 415-426): a fresh note takes the request's
fields (with defaults "Untitled" / "" / "primary"), and both the
`created_at` and `updated_at` column defaults evaluate `datetime.utcnow`
at the insert, here the single instant `now`. -/
def addNoteRec (now : ℤ) (title? content? color? : Option String) : NoteRec :=
  { title := title?.getD "Untitled"
    content := content?.getD ""
    color := color?.getD "primary"
    createdAt := now
    updatedAt := now }

/-- `update_note` (app.py lines 436-449): overwrites whichever of title,
content, color the request carries, then sets
`updated_at = datetime.utcnow()`; `created_at` is never assigned. -/
def updateNoteRec (n : NoteRec) (now : ℤ) (title? content? color? : Option String) :
    NoteRec :=
  { n with
    title := title?.getD n.title
    content := content?.getD n.content
    color := color?.getD n.color
    updatedAt := now }

/-- The claimed invariant. -/
def NoteInv (n : NoteRec) : Prop := n.createdAt ≤ n.updatedAt

/-- C9: `updatedAt ≥ createdAt` holds right after creation and is
preserved by every update made at any instant not earlier than the note's
creation (the clock is monotone across the note's lifetime); updates
refresh `updatedAt` to the update instant and never change `createdAt`. -/
theorem C9_note_timestamps :
    (∀ (now : ℤ) (t? c? col? : Option String), NoteInv (addNoteRec now t? c? col?)) ∧
    (∀ (n : NoteRec) (now : ℤ) (t? c? col? : Option String),
      NoteInv n → n.createdAt ≤ now →
        (updateNoteRec n now t? c? col?).createdAt = n.createdAt ∧
        (updateNoteRec n now t? c? col?).updatedAt = now ∧
        NoteInv (updateNoteRec n now t? c? col?)) := by
  refine ⟨fun now t? c? col? => le_refl now, fun n now t? c? col? _ hmono => ?_⟩
  exact ⟨rfl, rfl, hmono⟩

/-- Witness for C9: create a note at instant 5 and update it at instant 9;
the invariant holds and `createdAt` is unchanged. -/
theorem C9_note_timestamps_witness :
    NoteInv (addNoteRec 5 none none none) ∧
    (updateNoteRec (addNoteRec 5 none none none) 9 (some "t") none none).createdAt = 5 ∧
    NoteInv (updateNoteRec (addNoteRec 5 none none none) 9 (some "t") none none) :=
  ⟨C9_note_timestamps.1 5 none none none,
   (C9_note_timestamps.2 (addNoteRec 5 none none none) 9 (some "t") none none
      (C9_note_timestamps.1 5 none none none) (by decide)).1,
   (C9_note_timestamps.2 (addNoteRec 5 none none none) 9 (some "t") none none
      (C9_note_timestamps.1 5 none none none) (by decide)).2.2⟩

/- ================= Create handlers (app.py lines 372-379, 481-494, 536-546) ================= -/

/-- A `Todo` row as created by `add_todo`. -/
structure TodoRec where
  task : String
  completed : Bool
deriving DecidableEq

/-- `add_todo` (app.py lines 372-379): `Todo(task=data.get('task', ''))`
is added and committed with no validation of any kind; an absent task
becomes the empty string. -/
def addTodo (st : List TodoRec) (task? : Option String) : List TodoRec :=
  st ++ [{ task := task?.getD "", completed := false }]

/-- `complete_pomodoro` (app.py lines 536-546):
`PomodoroSession(duration=data.get('duration', 25), completed=True)` is
added and committed with no validation of the duration; `created_at`
defaults to the commit instant `now`. -/
def completePomodoro (st : List PomSession) (now : DateTime) (dur? : Option ℤ) :
    List PomSession :=
  st ++ [{ duration := dur?.getD 25, completed := true, createdAt := now }]

/-- Numeric value of a digit character. -/
def dval (c : Char) : ℕ := c.toNat - 48

/-- The `%m` pattern of CPython `strptime`: the regex alternation
`1[0-2]|0[1-9]|[1-9]`, returning the month and the unconsumed suffix.
The greedy two-digit branch is taken when it matches; this is
extensionally the backtracking regex because after the month the format
requires `-`, which can never follow a one-digit fallback that leaves a
digit in front. -/
def parseMonth : List Char → Option (ℕ × List Char)
  | '1' :: c :: rest =>
    if '0' ≤ c ∧ c ≤ '2' then some (10 + dval c, rest) else some (1, c :: rest)
  | '0' :: c :: rest =>
    if '1' ≤ c ∧ c ≤ '9' then some (dval c, rest) else none
  | c :: rest =>
    if '1' ≤ c ∧ c ≤ '9' then some (dval c, rest) else none
  | [] => none

/-- The `%d` pattern of CPython `strptime`: the regex alternation
`3[01]|[12][0-9]|0[1-9]|[1-9]`, same greedy reading as `parseMonth`
(after the day the format requires the end of the string). -/
def parseDay : List Char → Option (ℕ × List Char)
  | '3' :: c :: rest =>
    if c = '0' ∨ c = '1' then some (30 + dval c, rest) else some (3, c :: rest)
  | '0' :: c :: rest =>
    if '1' ≤ c ∧ c ≤ '9' then some (dval c, rest) else none
  | c :: c2 :: rest =>
    if (c = '1' ∨ c = '2') ∧ ('0' ≤ c2 ∧ c2 ≤ '9') then
      some (10 * dval c + dval c2, rest)
    else if '1' ≤ c ∧ c ≤ '9' then some (dval c, c2 :: rest)
    else none
  | [c] => if '1' ≤ c ∧ c ≤ '9' then some (dval c, []) else none
  | [] => none

/-- `datetime.strptime(s, '%Y-%m-%d').date()` (app.py line 488): `%Y` is
exactly four digits, the literal dashes must match, the string must be
fully consumed, and the `datetime` constructor then requires year ≥ 1
(`MINYEAR`) and a day no larger than the month's length. `none` models
the raised `ValueError`. -/
def strptimeYMD (s : String) : Option (ℕ × ℕ × ℕ) :=
  match s.data with
  | a :: b :: c :: d :: '-' :: rest =>
    if ('0' ≤ a ∧ a ≤ '9') ∧ ('0' ≤ b ∧ b ≤ '9') ∧ ('0' ≤ c ∧ c ≤ '9') ∧
        ('0' ≤ d ∧ d ≤ '9') then
      match parseMonth rest with
      | some (m, '-' :: rest2) =>
        match parseDay rest2 with
        | some (dy, []) =>
          let y := 1000 * dval a + 100 * dval b + 10 * dval c + dval d
          if 1 ≤ y ∧ dy ≤ monthLen y m then some (y, m, dy) else none
        | _ => none
      | _ => none
    else none
  | _ => none

/-- An `Event` row as created by `add_event`. -/
structure EventRec where
  title : String
  description : String
  date : ℕ × ℕ × ℕ
  time : String
  color : String
deriving DecidableEq

/-- `add_event` (app.py lines 481-494): a missing `date` key raises
`KeyError`, an unparsable date raises `ValueError` — both before
`db.session.add`, so the store is unchanged (modelled as `.error`).
Otherwise the event is added with defaults for the other fields. -/
def addEvent (st : List EventRec) (title? desc? dateStr? time? color? : Option String) :
    Except Unit (List EventRec) :=
  match dateStr? with
  | none => .error ()
  | some ds =>
    match strptimeYMD ds with
    | none => .error ()
    | some dt => .ok (st ++ [{ title := title?.getD "Untitled"
                               description := desc?.getD ""
                               date := dt
                               time := time?.getD ""
                               color := color?.getD "primary" }])

/-- C2 counterexample: a todo create request with no task text (empty
required text) and a pomodoro create request with duration −5 are both
committed — the store changes, no `InvalidInput` rejection occurs. -/
theorem C2_counterexample :
    addTodo [] none = [{ task := "", completed := false }] ∧
    addTodo [] none ≠ [] ∧
    completePomodoro [] ⟨0, 9, 0, 0, 0⟩ (some (-5))
      = [{ duration := -5, completed := true, createdAt := ⟨0, 9, 0, 0, 0⟩ }] ∧
    completePomodoro [] ⟨0, 9, 0, 0, 0⟩ (some (-5)) ≠ [] := by
  refine ⟨rfl, by decide, rfl, by decide⟩

/-- C2 (amended): the create handlers perform no input validation at all —
`add_todo` always appends a todo carrying the given task text (the empty
string when absent), and `complete_pomodoro` always appends a session with
the given duration (zero or negative included).  Only `add_event` can
reject a create request: a missing or malformed date string aborts it
before any mutation, and a well-formed date always appends the event. -/
theorem C2_create_validation_amended :
    (∀ (st : List TodoRec) (t? : Option String),
      addTodo st t? = st ++ [{ task := t?.getD "", completed := false }]) ∧
    (∀ (st : List PomSession) (now : DateTime) (d? : Option ℤ),
      completePomodoro st now d?
        = st ++ [{ duration := d?.getD 25, completed := true, createdAt := now }]) ∧
    (∀ (st : List EventRec) (t? d? ti? c? : Option String),
      addEvent st t? d? none ti? c? = .error ()) ∧
    (∀ (st : List EventRec) (t? d? ti? c? : Option String) (ds : String),
      strptimeYMD ds = none → addEvent st t? d? (some ds) ti? c? = .error ()) ∧
    (∀ (st : List EventRec) (t? d? ti? c? : Option String) (ds : String)
        (dt : ℕ × ℕ × ℕ), strptimeYMD ds = some dt →
      addEvent st t? d? (some ds) ti? c?
        = .ok (st ++ [{ title := t?.getD "Untitled", description := d?.getD "",
                        date := dt, time := ti?.getD "", color := c?.getD "primary" }])) := by
  refine ⟨fun st t? => rfl, fun st now d? => rfl, fun st t? d? ti? c? => rfl,
    fun st t? d? ti? c? ds h => ?_, fun st t? d? ti? c? ds dt h => ?_⟩
  · simp only [addEvent, h]
  · simp only [addEvent, h]

/-- Witness for C2's amended statement: month 13 does not parse, so the
event create request errors out; the same request with June instead is
appended. -/
theorem C2_create_validation_amended_witness :
    addEvent [] none none (some "2024-13-01") none none = .error () ∧
    addEvent [] none none (some "2024-06-01") none none
      = .ok [{ title := "Untitled", description := "", date := (2024, 6, 1),
               time := "", color := "primary" }] :=
  ⟨C2_create_validation_amended.2.2.2.1 [] none none none none "2024-13-01" (by decide),
   C2_create_validation_amended.2.2.2.2 [] none none none none "2024-06-01"
     (2024, 6, 1) (by decide)⟩

end Dashboard
